import Mathlib

/-!
Shallow embedding of `src/Def.h` of the lonepseudoranger repository.

Numeric model: the C++ `double` / `long double` values are modelled as exact
rationals (`ℚ`); the one irrational operation, `sqrt` in
`PositionsList::getDistance`, is modelled by `Real.sqrt` on the cast of the
rational radicand.  `std::vector::at` and `std::array::at` throw
`std::out_of_range` on a bad index; access through them is modelled with
`Option`, `none` standing for the exception.
-/

namespace Pseudoranger

/-- The local constant `double clight = 299792458;` declared inside
`Station::setR` (Def.h line 67). -/
def clightSetR : ℚ := 299792458

/-- The local constant `double clight = 299792458;` declared inside the
dt-based `Signal::addGroundStation` overload (Def.h line 434). -/
def clightAddGroundStation : ℚ := 299792458

/-- The `Station` class (Def.h lines 17-123): fields `x`, `y`, `z`
(coordinates), `t` (time of receiving signal), `r` (resolved range), `dt`
(receive minus send time), `delay`.  The C++ constructors each initialize only
a subset of the fields and leave the rest indeterminate; records here are
built with all fields explicit. -/
structure Station where
  x : ℚ
  y : ℚ
  z : ℚ
  t : ℚ
  r : ℚ
  dt : ℚ
  delay : ℚ
deriving DecidableEq

/-- `Station::setR(aT0)` (Def.h lines 65-70): `dt = t - aT0; r = dt * clight`
with the locally declared speed of light. -/
def Station.setR (s : Station) (aT0 : ℚ) : Station :=
  let dt := s.t - aT0
  { s with dt := dt, r := dt * clightSetR }

/-- The `Stations` class (Def.h lines 128-238): a vector of stations and a
time `mT` (uninitialized by the default constructor and unused by the
operations modelled here). -/
structure Stations where
  mStations : List Station
  mT : ℚ

/-- A default-constructed `Stations` object (empty vector). -/
def Stations.empty : Stations := ⟨[], 0⟩

/-- `Stations::addStation(Station)` (Def.h lines 140-143): push_back. -/
def Stations.addStation (ss : Stations) (aStation : Station) : Stations :=
  { ss with mStations := ss.mStations ++ [aStation] }

/-- `Stations::size()` (Def.h line 181). -/
def Stations.size (ss : Stations) : ℕ := ss.mStations.length

/-- `Stations::getStation(i)` (Def.h lines 188-191): `mStations.at(i)`,
throwing on a bad index (modelled as `none`). -/
def Stations.getStation (ss : Stations) (iStationNb : ℕ) : Option Station :=
  ss.mStations[iStationNb]?

/-- One iteration of the delay-statistics loop shared by
`Stations::printDelayStats` (Def.h lines 214-222) and
`Signal::printDelayStats` (Def.h lines 493-501).  The accumulator is
`(minDelay, maxDelay, sumDelay)`; the loop body does
`sumDelay += current; if (current > maxDelay) maxDelay = current;
if (current < minDelay) minDelay = current;`. -/
def delayStep (acc : ℚ × ℚ × ℚ) (current : ℚ) : ℚ × ℚ × ℚ :=
  (if current < acc.1 then current else acc.1,
   if acc.2.1 < current then current else acc.2.1,
   acc.2.2 + current)

/-- The delay-statistics loop, starting from
`minDelay = 100, maxDelay = 0, sumDelay = 0` (Def.h lines 212 and 491). -/
def delayFold (ds : List ℚ) : ℚ × ℚ × ℚ :=
  ds.foldl delayStep (100, 0, 0)

/-- `Stations::printDelayStats(aSatId, aTimestamp)` (Def.h lines 210-225).
The printed line is `aSatId aTimestamp sumDelay/mStations.size() minDelay
maxDelay`; it is modelled as the 5-tuple of printed values. -/
def Stations.printDelayStats (ss : Stations) (aSatId : ℤ) (aTimestamp : ℚ) :
    ℤ × ℚ × ℚ × ℚ × ℚ :=
  let st := delayFold (ss.mStations.map Station.delay)
  (aSatId, aTimestamp, st.2.2 / (ss.mStations.length : ℚ), st.1, st.2.1)

/-- The `Position` typedef (Def.h line 240):
`std::array<long double, 5>` holding `xs, ys, zs, rs` from Apollonius and the
combination id, all in the same array of `long double` slots. -/
abbrev Position := Fin 5 → ℚ

/-- The `PositionsList` class (Def.h lines 245-404). -/
structure PositionsList where
  mPositions : List Position

/-- A default-constructed `PositionsList` (empty vector). -/
def PositionsList.empty : PositionsList := ⟨[]⟩

/-- `PositionsList::addPosition(Position)` (Def.h lines 263-266): push_back. -/
def PositionsList.addPosition (l : PositionsList) (aPosition : Position) :
    PositionsList :=
  ⟨l.mPositions ++ [aPosition]⟩

/-- `PositionsList::addPosition(vector<long double>, vector<int>)`
(Def.h lines 272-289): branches on the vector's size; `at` throws (modelled
as `none`) when the vector has fewer than three entries (the final branch
reads indices 0, 1 and 2 unconditionally).  The `combSt` parameter is unused
by the C++ body and omitted. -/
def PositionsList.addPositionVec (l : PositionsList) (aPosVec : List ℚ) :
    Option PositionsList :=
  if aPosVec.length = 5 then
    some ⟨l.mPositions ++
      [![aPosVec.getD 0 0, aPosVec.getD 1 0, aPosVec.getD 2 0,
         aPosVec.getD 3 0, aPosVec.getD 4 0]]⟩
  else if 3 < aPosVec.length then
    some ⟨l.mPositions ++
      [![aPosVec.getD 0 0, aPosVec.getD 1 0, aPosVec.getD 2 0,
         aPosVec.getD 3 0, 0]]⟩
  else if aPosVec.length = 3 then
    some ⟨l.mPositions ++
      [![aPosVec.getD 0 0, aPosVec.getD 1 0, aPosVec.getD 2 0, 0, 0]]⟩
  else none

/-- `PositionsList::getPosition(aIndex)` (Def.h line 308): `at`, throwing on a
bad index (modelled as `none`). -/
def PositionsList.getPosition (l : PositionsList) (aIndex : ℕ) :
    Option Position :=
  l.mPositions[aIndex]?

/-- `PositionsList::size()` (Def.h line 325). -/
def PositionsList.size (l : PositionsList) : ℕ := l.mPositions.length

/-- `PositionsList::getX(aIndex)` (Def.h line 331): slot 0 of the position. -/
def PositionsList.getX (l : PositionsList) (aIndex : ℕ) : Option ℚ :=
  (l.mPositions[aIndex]?).map (fun p => p 0)

/-- `PositionsList::getY(aIndex)` (Def.h line 337): slot 1 of the position. -/
def PositionsList.getY (l : PositionsList) (aIndex : ℕ) : Option ℚ :=
  (l.mPositions[aIndex]?).map (fun p => p 1)

/-- `PositionsList::getZ(aIndex)` (Def.h line 343): slot 2 of the position. -/
def PositionsList.getZ (l : PositionsList) (aIndex : ℕ) : Option ℚ :=
  (l.mPositions[aIndex]?).map (fun p => p 2)

/-- `PositionsList::getR(aIndex)` (Def.h line 349): slot 3 of the position. -/
def PositionsList.getR (l : PositionsList) (aIndex : ℕ) : Option ℚ :=
  (l.mPositions[aIndex]?).map (fun p => p 3)

/-- `PositionsList::getCombId(aIndex)` (Def.h line 355): slot 4 of the
position, returned as a `long double`. -/
def PositionsList.getCombId (l : PositionsList) (aIndex : ℕ) : Option ℚ :=
  (l.mPositions[aIndex]?).map (fun p => p 4)

/-- `PositionsList::getDistance(aIndexFirst, aIndexSecond)`
(Def.h lines 362-370): `sqrt(dx*dx + dy*dy + dz*dz)` of the coordinate
differences; any out-of-range index throws (modelled as `none`). -/
noncomputable def PositionsList.getDistance (l : PositionsList)
    (aIndexFirst aIndexSecond : ℕ) : Option ℝ :=
  match l.mPositions[aIndexFirst]?, l.mPositions[aIndexSecond]? with
  | some p, some q =>
      let dx := p 0 - q 0
      let dy := p 1 - q 1
      let dz := p 2 - q 2
      some (Real.sqrt ((dx * dx + dy * dy + dz * dz : ℚ) : ℝ))
  | _, _ => none

/-- `PositionsList::printAveragePosition()` (Def.h lines 388-400): accumulates
`x += p.at(0)/positionsNb` (and likewise for y, z) over all positions and
prints the resulting triple. -/
def PositionsList.printAveragePosition (l : PositionsList) : ℚ × ℚ × ℚ :=
  let positionsNb : ℚ := (l.mPositions.length : ℚ)
  l.mPositions.foldl
    (fun acc p =>
      (acc.1 + p 0 / positionsNb,
       acc.2.1 + p 1 / positionsNb,
       acc.2.2 + p 2 / positionsNb))
    (0, 0, 0)

/-- The `Signal` class (Def.h lines 407-509): satellite id, timestamp, and a
vector of ground-station tuples `(x, y, z, r, delay)`. -/
structure Signal where
  mSatId : ℤ
  mTimestamp : ℚ
  mGroundStations : List (ℚ × ℚ × ℚ × ℚ × ℚ)

/-- The range-based `Signal::addGroundStation(ax, ay, az, ar)` overload
(Def.h lines 424-427): stores `(ax, ay, az, ar, 0)`. -/
def Signal.addGroundStation (s : Signal) (ax ay az ar : ℚ) : Signal :=
  { s with mGroundStations := s.mGroundStations ++ [(ax, ay, az, ar, 0)] }

/-- The dt-based `Signal::addGroundStation(ax, ay, az, at0, adt, aDelay)`
overload (Def.h lines 432-437): `r = clight * adt` with the locally declared
speed of light; `at0` is accepted but unused by the body. -/
def Signal.addGroundStationDt (s : Signal) (ax ay az : ℚ) (_aT0 adt aDelay : ℚ) :
    Signal :=
  { s with mGroundStations :=
      s.mGroundStations ++ [(ax, ay, az, clightAddGroundStation * adt, aDelay)] }

/-- `Signal::positionKnown(ax, ay, az)` (Def.h lines 459-471): scans all
ground stations, setting `isKnown = true` whenever slots 0, 1 and 2 equal the
given coordinates; the range and delay slots are never examined. -/
def Signal.positionKnown (s : Signal) (ax ay az : ℚ) : Bool :=
  s.mGroundStations.foldl
    (fun isKnown g =>
      if g.1 = ax ∧ g.2.1 = ay ∧ g.2.2.1 = az then true else isKnown)
    false

/-- `Signal::getSize()` (Def.h line 488). -/
def Signal.getSize (s : Signal) : ℕ := s.mGroundStations.length

/-- `Signal::printDelayStats()` (Def.h lines 489-503): the same loop as
`Stations::printDelayStats` over the delay slot (index 4) of the ground
stations, printing `mSatId mTimestamp sumDelay/size minDelay maxDelay`. -/
def Signal.printDelayStats (s : Signal) : ℤ × ℚ × ℚ × ℚ × ℚ :=
  let st := delayFold (s.mGroundStations.map (fun g => g.2.2.2.2))
  (s.mSatId, s.mTimestamp, st.2.2 / (s.mGroundStations.length : ℚ), st.1, st.2.1)

/-!
Theorems settling the claims.
-/

/-- C1: for every station, range resolution computes `range = (t - t0) * c`
with the fixed speed-of-light constant `c = 299792458` m/s, and the dt-based
`Signal::addGroundStation` overload stores `r = c * adt` with that same
constant value: the two locally declared constants are equal and both equal
299792458. -/
theorem C1_range_resolution_uses_single_clight
    (s : Station) (aT0 : ℚ) (sig : Signal) (ax ay az aT0b adt aDelay : ℚ) :
    (s.setR aT0).r = (s.t - aT0) * 299792458 ∧
    (sig.addGroundStationDt ax ay az aT0b adt aDelay).mGroundStations =
      sig.mGroundStations ++ [(ax, ay, az, (299792458 : ℚ) * adt, aDelay)] ∧
    clightSetR = 299792458 ∧ clightAddGroundStation = clightSetR := by
  refine ⟨rfl, ?_, rfl, rfl⟩
  simp [Signal.addGroundStationDt, clightAddGroundStation]

/-- C2 counterexample: the claim says range resolution fails with
`InvalidTiming` when `t < t0` and that no station holds a negative resolved
range after `setR`; but `setR` applied with `t = 0 < 1 = t0` stores the
negative range `-299792458`. -/
theorem C2_counterexample_setR_stores_negative_range :
    ((⟨0, 0, 0, 0, 0, 0, 0⟩ : Station).setR 1).r = -299792458 ∧
    ((⟨0, 0, 0, 0, 0, 0, 0⟩ : Station).setR 1).r < 0 := by
  constructor <;> norm_num [Station.setR, clightSetR]

/-- C2 amended: `Station::setR` performs no timing validation and has no
failure path: it unconditionally stores `r = (t - t0) * c`, so whenever the
receive time `t` is earlier than the transmission time `t0` the station holds
a strictly negative resolved range, and `Stations::addStation` accepts such a
station unchanged, so it does appear in the station set. -/
theorem C2_amended_setR_unvalidated (s : Station) (aT0 : ℚ) (ss : Stations)
    (h : s.t < aT0) :
    (s.setR aT0).r = (s.t - aT0) * clightSetR ∧
    (s.setR aT0).r < 0 ∧
    (ss.addStation (s.setR aT0)).mStations = ss.mStations ++ [s.setR aT0] := by
  refine ⟨rfl, ?_, rfl⟩
  have hc : (0 : ℚ) < clightSetR := by norm_num [clightSetR]
  have hdt : s.t - aT0 < 0 := by linarith
  calc (s.setR aT0).r = (s.t - aT0) * clightSetR := rfl
    _ < 0 := mul_neg_of_neg_of_pos hdt hc

/-- C2 amended, witnessed at the station of the counterexample. -/
theorem C2_amended_setR_unvalidated_witness :
    (0 : ℚ) < 1 ∧
    (((⟨0, 0, 0, 0, 0, 0, 0⟩ : Station).setR 1).r = (0 - 1) * clightSetR ∧
     ((⟨0, 0, 0, 0, 0, 0, 0⟩ : Station).setR 1).r < 0 ∧
     (Stations.empty.addStation ((⟨0, 0, 0, 0, 0, 0, 0⟩ : Station).setR 1)).mStations =
       Stations.empty.mStations ++ [(⟨0, 0, 0, 0, 0, 0, 0⟩ : Station).setR 1]) :=
  ⟨by norm_num,
   C2_amended_setR_unvalidated ⟨0, 0, 0, 0, 0, 0, 0⟩ 1 Stations.empty (by norm_num)⟩

lemma ite_lt_eq_min (a d : ℚ) : (if d < a then d else a) = min a d := by
  rcases lt_or_ge d a with h | h
  · rw [if_pos h, min_eq_right h.le]
  · rw [if_neg (not_lt.mpr h), min_eq_left h]

lemma ite_lt_eq_max (a d : ℚ) : (if a < d then d else a) = max a d := by
  rcases lt_or_ge a d with h | h
  · rw [if_pos h, max_eq_right h.le]
  · rw [if_neg (not_lt.mpr h), max_eq_left h]

lemma delayFold_go_sum (ds : List ℚ) : ∀ a : ℚ × ℚ × ℚ,
    (ds.foldl delayStep a).2.2 = a.2.2 + ds.sum := by
  induction ds with
  | nil => intro a; simp
  | cons d tl ih =>
      intro a
      rw [List.foldl_cons, ih]
      simp [delayStep]
      ring

lemma delayFold_go_min (ds : List ℚ) : ∀ a : ℚ × ℚ × ℚ,
    (ds.foldl delayStep a).1 = ds.foldl min a.1 := by
  induction ds with
  | nil => intro a; rfl
  | cons d tl ih =>
      intro a
      rw [List.foldl_cons, ih, List.foldl_cons]
      congr 1
      exact ite_lt_eq_min a.1 d

lemma delayFold_go_max (ds : List ℚ) : ∀ a : ℚ × ℚ × ℚ,
    (ds.foldl delayStep a).2.1 = ds.foldl max a.2.1 := by
  induction ds with
  | nil => intro a; rfl
  | cons d tl ih =>
      intro a
      rw [List.foldl_cons, ih, List.foldl_cons]
      congr 1
      exact ite_lt_eq_max a.2.1 d

lemma foldl_min_le_init (ds : List ℚ) : ∀ a : ℚ, ds.foldl min a ≤ a := by
  induction ds with
  | nil => intro a; exact le_refl a
  | cons d tl ih => intro a; exact le_trans (ih (min a d)) (min_le_left a d)

lemma foldl_min_le_mem (ds : List ℚ) : ∀ a d : ℚ, d ∈ ds → ds.foldl min a ≤ d := by
  induction ds with
  | nil => intro a d h; cases h
  | cons hd tl ih =>
      intro a d h
      rcases List.mem_cons.mp h with h1 | h2
      · subst h1
        exact le_trans (foldl_min_le_init tl (min a d)) (min_le_right a d)
      · exact ih (min a hd) d h2

lemma foldl_min_eq_init_or_mem (ds : List ℚ) : ∀ a : ℚ,
    ds.foldl min a = a ∨ ds.foldl min a ∈ ds := by
  induction ds with
  | nil => intro a; exact Or.inl rfl
  | cons hd tl ih =>
      intro a
      rw [List.foldl_cons]
      rcases ih (min a hd) with h | h
      · rcases min_choice a hd with h2 | h2
        · exact Or.inl (by rw [h, h2])
        · exact Or.inr (by rw [h, h2]; exact List.mem_cons_self hd tl)
      · exact Or.inr (List.mem_cons_of_mem hd h)

lemma init_le_foldl_max (ds : List ℚ) : ∀ a : ℚ, a ≤ ds.foldl max a := by
  induction ds with
  | nil => intro a; exact le_refl a
  | cons d tl ih => intro a; exact le_trans (le_max_left a d) (ih (max a d))

lemma mem_le_foldl_max (ds : List ℚ) : ∀ a d : ℚ, d ∈ ds → d ≤ ds.foldl max a := by
  induction ds with
  | nil => intro a d h; cases h
  | cons hd tl ih =>
      intro a d h
      rcases List.mem_cons.mp h with h1 | h2
      · subst h1
        exact le_trans (le_max_right a d) (init_le_foldl_max tl (max a d))
      · exact ih (max a hd) d h2

lemma foldl_max_eq_init_or_mem (ds : List ℚ) : ∀ a : ℚ,
    ds.foldl max a = a ∨ ds.foldl max a ∈ ds := by
  induction ds with
  | nil => intro a; exact Or.inl rfl
  | cons hd tl ih =>
      intro a
      rw [List.foldl_cons]
      rcases ih (max a hd) with h | h
      · rcases max_choice a hd with h2 | h2
        · exact Or.inl (by rw [h, h2])
        · exact Or.inr (by rw [h, h2]; exact List.mem_cons_self hd tl)
      · exact Or.inr (List.mem_cons_of_mem hd h)

/-- What the delay-statistics loop actually reports about a delay list `ds` of
length `n`: the mean slot is `ds.sum / n`, the reported minimum is
`min 100 (minimum of ds)` (characterized by being at most 100, below every
element, and equal to 100 or attained) and the reported maximum is
`max 0 (maximum of ds)` (at least 0, above every element, equal to 0 or
attained). -/
def statsSpec (ds : List ℚ) (n : ℕ) (mean mn mx : ℚ) : Prop :=
  mean = ds.sum / (n : ℚ) ∧
  mn ≤ 100 ∧ (∀ d ∈ ds, mn ≤ d) ∧ (mn = 100 ∨ mn ∈ ds) ∧
  0 ≤ mx ∧ (∀ d ∈ ds, d ≤ mx) ∧ (mx = 0 ∨ mx ∈ ds)

lemma delayFold_statsSpec (ds : List ℚ) :
    statsSpec ds ds.length ((delayFold ds).2.2 / (ds.length : ℚ))
      (delayFold ds).1 (delayFold ds).2.1 := by
  have hsum : (delayFold ds).2.2 = ds.sum := by
    rw [delayFold, delayFold_go_sum]
    simp
  have hmin : (delayFold ds).1 = ds.foldl min 100 := by
    rw [delayFold, delayFold_go_min]
  have hmax : (delayFold ds).2.1 = ds.foldl max 0 := by
    rw [delayFold, delayFold_go_max]
  refine ⟨by rw [hsum], ?_, ?_, ?_, ?_, ?_, ?_⟩
  · rw [hmin]; exact foldl_min_le_init ds 100
  · intro d hd; rw [hmin]; exact foldl_min_le_mem ds 100 d hd
  · rw [hmin]; exact foldl_min_eq_init_or_mem ds 100
  · rw [hmax]; exact init_le_foldl_max ds 0
  · intro d hd; rw [hmax]; exact mem_le_foldl_max ds 0 d hd
  · rw [hmax]; exact foldl_max_eq_init_or_mem ds 0

/-- C3 counterexample: the claim says the delay statistics report exactly the
minimum of the delays; on a single-station collection with delay 200 the
printed line is `(satId, timestamp, mean, min, max) = (0, 0, 200, 100, 200)`:
the reported minimum is the loop's initial sentinel 100, not the true
minimum 200. -/
theorem C3_counterexample_min_sentinel :
    (Stations.mk [⟨0, 0, 0, 0, 0, 0, 200⟩] 0).printDelayStats 0 0 =
      (0, 0, 200, 100, 200) ∧
    (Stations.mk [⟨0, 0, 0, 0, 0, 0, 200⟩] 0).mStations.map Station.delay =
      [200] ∧
    (100 : ℚ) ≠ 200 := by
  refine ⟨?_, by simp, by norm_num⟩
  simp [Stations.printDelayStats, delayFold, delayStep, Station.delay]
  norm_num

/-- C3 amended: for every non-empty collection, both delay-statistics
operations report the arithmetic mean (sum of delays divided by the count)
exactly, but the reported minimum is `min 100 (true minimum)` and the
reported maximum is `max 0 (true maximum)`, the 100 and 0 being the loop's
initial sentinel values; each reported extremum is exact only when some delay
lies at or below 100 (respectively at or above 0). -/
theorem C3_amended_delay_stats_sentinel_clamped (ss : Stations) (aSatId : ℤ)
    (aTimestamp : ℚ) (sig : Signal) (_hss : ss.mStations ≠ [])
    (_hsig : sig.mGroundStations ≠ []) :
    statsSpec (ss.mStations.map Station.delay) ss.size
      ((ss.printDelayStats aSatId aTimestamp).2.2.1)
      ((ss.printDelayStats aSatId aTimestamp).2.2.2.1)
      ((ss.printDelayStats aSatId aTimestamp).2.2.2.2) ∧
    statsSpec (sig.mGroundStations.map (fun g => g.2.2.2.2)) sig.getSize
      sig.printDelayStats.2.2.1
      sig.printDelayStats.2.2.2.1
      sig.printDelayStats.2.2.2.2 := by
  constructor
  · have h1 := delayFold_statsSpec (ss.mStations.map Station.delay)
    simpa [Stations.printDelayStats, Stations.size] using h1
  · have h2 := delayFold_statsSpec (sig.mGroundStations.map (fun g => g.2.2.2.2))
    simpa [Signal.printDelayStats, Signal.getSize] using h2

/-- C3 amended claim, witnessed on a one-station collection with delay 5 and a
one-ground-station signal with delay 7. -/
theorem C3_amended_delay_stats_sentinel_clamped_witness :
    (Stations.mk [⟨0, 0, 0, 0, 0, 0, 5⟩] 0).mStations ≠ [] ∧
    (Signal.mk 0 0 [(0, 0, 0, 0, 7)]).mGroundStations ≠ [] ∧
    (statsSpec ((Stations.mk [⟨0, 0, 0, 0, 0, 0, 5⟩] 0).mStations.map
        Station.delay)
      (Stations.mk [⟨0, 0, 0, 0, 0, 0, 5⟩] 0).size
      (((Stations.mk [⟨0, 0, 0, 0, 0, 0, 5⟩] 0).printDelayStats 3 2).2.2.1)
      (((Stations.mk [⟨0, 0, 0, 0, 0, 0, 5⟩] 0).printDelayStats 3 2).2.2.2.1)
      (((Stations.mk [⟨0, 0, 0, 0, 0, 0, 5⟩] 0).printDelayStats 3 2).2.2.2.2) ∧
    statsSpec ((Signal.mk 0 0 [(0, 0, 0, 0, 7)]).mGroundStations.map
        (fun g => g.2.2.2.2))
      (Signal.mk 0 0 [(0, 0, 0, 0, 7)]).getSize
      (Signal.mk 0 0 [(0, 0, 0, 0, 7)]).printDelayStats.2.2.1
      (Signal.mk 0 0 [(0, 0, 0, 0, 7)]).printDelayStats.2.2.2.1
      (Signal.mk 0 0 [(0, 0, 0, 0, 7)]).printDelayStats.2.2.2.2) :=
  ⟨by simp, by simp,
   C3_amended_delay_stats_sentinel_clamped (Stations.mk [⟨0, 0, 0, 0, 0, 0, 5⟩] 0)
     3 2 (Signal.mk 0 0 [(0, 0, 0, 0, 7)]) (by simp) (by simp)⟩

/-- C4: for stored candidates `p` at index `i` and `q` at index `j`,
`getDistance` returns the Euclidean distance
`sqrt((x_i - x_j)^2 + (y_i - y_j)^2 + (z_i - z_j)^2)`; it is symmetric in the
two indices and zero on the diagonal. -/
theorem C4_getDistance_euclidean (l : PositionsList) (i j : ℕ)
    (p q : Position) (hp : l.mPositions[i]? = some p)
    (hq : l.mPositions[j]? = some q) :
    l.getDistance i j =
      some (Real.sqrt (((p 0 : ℝ) - (q 0 : ℝ)) ^ 2 +
        ((p 1 : ℝ) - (q 1 : ℝ)) ^ 2 + ((p 2 : ℝ) - (q 2 : ℝ)) ^ 2)) ∧
    l.getDistance i j = l.getDistance j i ∧
    l.getDistance i i = some 0 := by
  refine ⟨?_, ?_, ?_⟩
  · simp only [PositionsList.getDistance, hp, hq]
    congr 1
    push_cast
    ring
  · simp only [PositionsList.getDistance, hp, hq]
    congr 1
    congr 1
    push_cast
    ring
  · simp only [PositionsList.getDistance, hp]
    norm_num

/-- C4 witnessed on a two-candidate store at indices 0 and 1. -/
theorem C4_getDistance_euclidean_witness :
    (PositionsList.mk [![0, 0, 0, 0, 0], ![3, 4, 0, 0, 0]]).mPositions[0]? =
      some ![0, 0, 0, 0, 0] ∧
    (PositionsList.mk [![0, 0, 0, 0, 0], ![3, 4, 0, 0, 0]]).mPositions[1]? =
      some ![3, 4, 0, 0, 0] ∧
    ((PositionsList.mk [![0, 0, 0, 0, 0], ![3, 4, 0, 0, 0]]).getDistance 0 1 =
      some (Real.sqrt ((((![0, 0, 0, 0, 0] : Position) 0 : ℝ) -
          ((![3, 4, 0, 0, 0] : Position) 0 : ℝ)) ^ 2 +
        (((![0, 0, 0, 0, 0] : Position) 1 : ℝ) -
          ((![3, 4, 0, 0, 0] : Position) 1 : ℝ)) ^ 2 +
        (((![0, 0, 0, 0, 0] : Position) 2 : ℝ) -
          ((![3, 4, 0, 0, 0] : Position) 2 : ℝ)) ^ 2)) ∧
    (PositionsList.mk [![0, 0, 0, 0, 0], ![3, 4, 0, 0, 0]]).getDistance 0 1 =
      (PositionsList.mk [![0, 0, 0, 0, 0], ![3, 4, 0, 0, 0]]).getDistance 1 0 ∧
    (PositionsList.mk [![0, 0, 0, 0, 0], ![3, 4, 0, 0, 0]]).getDistance 0 0 =
      some 0) :=
  ⟨rfl, rfl,
   C4_getDistance_euclidean (PositionsList.mk [![0, 0, 0, 0, 0], ![3, 4, 0, 0, 0]])
     0 1 ![0, 0, 0, 0, 0] ![3, 4, 0, 0, 0] rfl rfl⟩

lemma avgFold_go (n : ℚ) (ps : List Position) : ∀ a b c : ℚ,
    ps.foldl
      (fun acc p => (acc.1 + p 0 / n, acc.2.1 + p 1 / n, acc.2.2 + p 2 / n))
      (a, b, c) =
    (a + (ps.map (fun p => p 0)).sum / n,
     b + (ps.map (fun p => p 1)).sum / n,
     c + (ps.map (fun p => p 2)).sum / n) := by
  induction ps with
  | nil => intro a b c; simp
  | cons p tl ih =>
      intro a b c
      rw [List.foldl_cons, ih]
      simp only [List.map_cons, List.sum_cons, Prod.mk.injEq, add_div]
      refine ⟨by ring, by ring, by ring⟩

/-- C5: on a non-empty candidate store, the average-position operation reports
the unweighted centroid: each coordinate is the coordinate sum over all stored
positions divided by the number of positions. -/
theorem C5_average_is_centroid (l : PositionsList) (_h : l.mPositions ≠ []) :
    l.printAveragePosition =
      ((l.mPositions.map (fun p => p 0)).sum / (l.mPositions.length : ℚ),
       (l.mPositions.map (fun p => p 1)).sum / (l.mPositions.length : ℚ),
       (l.mPositions.map (fun p => p 2)).sum / (l.mPositions.length : ℚ)) := by
  rw [PositionsList.printAveragePosition, avgFold_go]
  simp

/-- C5 witnessed on a two-candidate store. -/
theorem C5_average_is_centroid_witness :
    (PositionsList.mk [![1, 2, 3, 0, 0], ![3, 4, 5, 0, 0]]).mPositions ≠ [] ∧
    (PositionsList.mk [![1, 2, 3, 0, 0], ![3, 4, 5, 0, 0]]).printAveragePosition =
      (((PositionsList.mk [![1, 2, 3, 0, 0], ![3, 4, 5, 0, 0]]).mPositions.map
          (fun p => p 0)).sum /
        ((PositionsList.mk [![1, 2, 3, 0, 0], ![3, 4, 5, 0, 0]]).mPositions.length : ℚ),
       ((PositionsList.mk [![1, 2, 3, 0, 0], ![3, 4, 5, 0, 0]]).mPositions.map
          (fun p => p 1)).sum /
        ((PositionsList.mk [![1, 2, 3, 0, 0], ![3, 4, 5, 0, 0]]).mPositions.length : ℚ),
       ((PositionsList.mk [![1, 2, 3, 0, 0], ![3, 4, 5, 0, 0]]).mPositions.map
          (fun p => p 2)).sum /
        ((PositionsList.mk [![1, 2, 3, 0, 0], ![3, 4, 5, 0, 0]]).mPositions.length : ℚ)) :=
  ⟨by simp,
   C5_average_is_centroid (PositionsList.mk [![1, 2, 3, 0, 0], ![3, 4, 5, 0, 0]])
     (by simp)⟩

/-- C6 counterexample: the combination identifier is not modeled as an
integer: the comb-id slot is the fifth `long double` slot of the same
`Position` array as the coordinates, and it can hold the non-integer value
1/2, which `getCombId` returns as stored. -/
theorem C6_counterexample_combId_not_integer :
    PositionsList.empty.addPositionVec [0, 0, 0, 0, (1 : ℚ)/2] =
      some ⟨[![0, 0, 0, 0, (1 : ℚ)/2]]⟩ ∧
    (PositionsList.mk [![0, 0, 0, 0, (1 : ℚ)/2]]).getCombId 0 =
      some ((1 : ℚ)/2) ∧
    (1 : ℚ)/2 ∉ Set.range (fun m : ℤ => (m : ℚ)) := by
  refine ⟨?_, ?_, ?_⟩
  · simp [PositionsList.empty, PositionsList.addPositionVec]
  · simp [PositionsList.getCombId]
  · rintro ⟨m, hm⟩
    have hm2 : (m : ℚ) = 1/2 := hm
    have h2 : (2 : ℚ) * (m : ℚ) = 1 := by rw [hm2]; norm_num
    have h3 : (2 * m : ℤ) = 1 := by exact_mod_cast h2
    omega

/-- C6 amended: the combination identifier lives in slot 4 of the same
5-slot `long double` array as the position fields (not a separate integer
field); adding a position vector whose fifth entry is the integer `n` and
reading it back through `getCombId` returns exactly `n` (exact in the
rational model of `long double` arithmetic), though the slot itself does not
enforce integrality. -/
theorem C6_amended_combId_slot_roundtrip (l : PositionsList) (x y z r : ℚ)
    (n : ℤ) :
    ∃ l2 : PositionsList,
      l.addPositionVec [x, y, z, r, (n : ℚ)] = some l2 ∧
      l2.getCombId l.size = some ((n : ℚ)) ∧
      l2.getPosition l.size = some ![x, y, z, r, (n : ℚ)] := by
  refine ⟨⟨l.mPositions ++ [![x, y, z, r, (n : ℚ)]]⟩, ?_, ?_, ?_⟩
  · simp [PositionsList.addPositionVec]
  · simp [PositionsList.getCombId, PositionsList.size]
  · simp [PositionsList.getPosition, PositionsList.size]

/-- C7: the candidate store never deduplicates: adding any position, equal to
an already-stored one or not, increases the size by exactly one and leaves
every previously stored candidate unchanged at its index. -/
theorem C7_addPosition_no_dedup (l : PositionsList) (p : Position) :
    (l.addPosition p).size = l.size + 1 ∧
    ∀ i : ℕ, i < l.size → (l.addPosition p).getPosition i = l.getPosition i := by
  constructor
  · simp [PositionsList.addPosition, PositionsList.size]
  · intro i hi
    simp only [PositionsList.addPosition, PositionsList.getPosition]
    exact List.getElem?_append_left hi

/-- C7 witnessed by re-adding a position already present in the store. -/
theorem C7_addPosition_no_dedup_witness :
    ((PositionsList.mk [![1, 2, 3, 4, 5]]).addPosition ![1, 2, 3, 4, 5]).size =
      (PositionsList.mk [![1, 2, 3, 4, 5]]).size + 1 ∧
    0 < (PositionsList.mk [![1, 2, 3, 4, 5]]).size ∧
    ((PositionsList.mk [![1, 2, 3, 4, 5]]).addPosition
        ![1, 2, 3, 4, 5]).getPosition 0 =
      (PositionsList.mk [![1, 2, 3, 4, 5]]).getPosition 0 :=
  ⟨(C7_addPosition_no_dedup (PositionsList.mk [![1, 2, 3, 4, 5]]) ![1, 2, 3, 4, 5]).1,
   by simp [PositionsList.size],
   (C7_addPosition_no_dedup (PositionsList.mk [![1, 2, 3, 4, 5]]) ![1, 2, 3, 4, 5]).2
     0 (by simp [PositionsList.size])⟩

lemma addStation_foldl (ls : List Station) : ∀ ss : Stations,
    (ls.foldl Stations.addStation ss).mStations = ss.mStations ++ ls := by
  induction ls with
  | nil => intro ss; simp
  | cons s tl ih =>
      intro ss
      rw [List.foldl_cons, ih]
      simp [Stations.addStation]

/-- C8: the station set preserves insertion order: after adding the stations
of `ls` one by one to a fresh `Stations` collection, `size` equals the number
of stations added and `getStation i` returns the i-th station added. -/
theorem C8_insertion_order_preserved (ls : List Station) (i : ℕ)
    (h : i < ls.length) :
    (ls.foldl Stations.addStation Stations.empty).size = ls.length ∧
    (ls.foldl Stations.addStation Stations.empty).getStation i =
      some (ls.get ⟨i, h⟩) := by
  constructor
  · rw [Stations.size, addStation_foldl]
    simp [Stations.empty]
  · rw [Stations.getStation, addStation_foldl]
    simp [Stations.empty, List.getElem?_eq_getElem h]

/-- C8 witnessed on a two-station insertion sequence, reading back index 1. -/
theorem C8_insertion_order_preserved_witness :
    (1 : ℕ) < ([⟨1, 0, 0, 0, 0, 0, 0⟩, ⟨2, 0, 0, 0, 0, 0, 0⟩] :
      List Station).length ∧
    (([⟨1, 0, 0, 0, 0, 0, 0⟩, ⟨2, 0, 0, 0, 0, 0, 0⟩] :
        List Station).foldl Stations.addStation Stations.empty).size = 2 ∧
    (([⟨1, 0, 0, 0, 0, 0, 0⟩, ⟨2, 0, 0, 0, 0, 0, 0⟩] :
        List Station).foldl Stations.addStation Stations.empty).getStation 1 =
      some ⟨2, 0, 0, 0, 0, 0, 0⟩ :=
  ⟨by simp,
   (C8_insertion_order_preserved
     [⟨1, 0, 0, 0, 0, 0, 0⟩, ⟨2, 0, 0, 0, 0, 0, 0⟩] 1 (by simp)).1,
   (C8_insertion_order_preserved
     [⟨1, 0, 0, 0, 0, 0, 0⟩, ⟨2, 0, 0, 0, 0, 0, 0⟩] 1 (by simp)).2⟩

lemma positionKnown_go (ax ay az : ℚ) (gs : List (ℚ × ℚ × ℚ × ℚ × ℚ)) :
    ∀ b : Bool,
      gs.foldl
        (fun isKnown g =>
          if g.1 = ax ∧ g.2.1 = ay ∧ g.2.2.1 = az then true else isKnown)
        b = true ↔
      (b = true ∨ ∃ g ∈ gs, g.1 = ax ∧ g.2.1 = ay ∧ g.2.2.1 = az) := by
  induction gs with
  | nil => intro b; simp
  | cons g tl ih =>
      intro b
      rw [List.foldl_cons, ih]
      by_cases hg : g.1 = ax ∧ g.2.1 = ay ∧ g.2.2.1 = az
      · simp only [if_pos hg, List.mem_cons]
        constructor
        · intro _; exact Or.inr ⟨g, Or.inl rfl, hg⟩
        · intro _; exact Or.inl trivial
      · simp only [if_neg hg, List.mem_cons]
        constructor
        · rintro (hb | ⟨g2, hg2, hP⟩)
          · exact Or.inl hb
          · exact Or.inr ⟨g2, Or.inr hg2, hP⟩
        · rintro (hb | ⟨g2, hg2mem, hP⟩)
          · exact Or.inl hb
          · rcases hg2mem with rfl | hmem
            · exact absurd hP hg
            · exact Or.inr ⟨g2, hmem, hP⟩

/-- C9: `positionKnown(x, y, z)` returns true exactly when some previously
added ground station has coordinate slots equal to `(x, y, z)`; the range and
delay slots (indices 3 and 4) do not enter the comparison. -/
theorem C9_positionKnown_iff_coords_match (s : Signal) (ax ay az : ℚ) :
    s.positionKnown ax ay az = true ↔
      ∃ g ∈ s.mGroundStations, g.1 = ax ∧ g.2.1 = ay ∧ g.2.2.1 = az := by
  rw [Signal.positionKnown, positionKnown_go]
  simp

/-- C10: both delay-statistics operations divide the accumulated delay sum by
the element count unconditionally, and on an empty collection the sum and the
count are both zero, so the printed mean is the division `0 / 0` (IEEE NaN in
the C++ `double` arithmetic); non-emptiness is the precondition for the mean
to be well-defined. -/
theorem C10_empty_delay_stats_divides_zero_by_zero :
    (∀ (ss : Stations) (aSatId : ℤ) (aTimestamp : ℚ),
        (ss.printDelayStats aSatId aTimestamp).2.2.1 =
          (delayFold (ss.mStations.map Station.delay)).2.2 /
            (ss.mStations.length : ℚ)) ∧
    (∀ sg : Signal,
        sg.printDelayStats.2.2.1 =
          (delayFold (sg.mGroundStations.map (fun g => g.2.2.2.2))).2.2 /
            (sg.mGroundStations.length : ℚ)) ∧
    (delayFold ((Stations.mk [] 0).mStations.map Station.delay)).2.2 = 0 ∧
    (Stations.mk [] 0).size = 0 ∧
    (delayFold ((Signal.mk 0 0 []).mGroundStations.map
      (fun g => g.2.2.2.2))).2.2 = 0 ∧
    (Signal.mk 0 0 []).getSize = 0 :=
  ⟨fun _ _ _ => rfl, fun _ => rfl, rfl, rfl, rfl, rfl⟩

end Pseudoranger
